import Mathlib

/-!
Verification development for the Bonfire Hub harvest pipeline
(`src/scraper.py`).  The Python source is shallowly embedded: pure
helpers become Lean functions, the browser/network is abstracted as an
oracle of fetch outcomes, and the retry/pagination loops become
fuel-indexed recursions.  Machine-level details that the claims do not
touch (unicode case mapping beyond ASCII, the real `json` parser, wall
clock time) are abstracted as parameters and noted at each definition.
-/

namespace Bonfire

/- =====================  Deadline arithmetic (§4.5)  =====================
   Embedding of `calculate_days_remaining` (scraper.py lines 107-127),
   including a faithful model of
   `datetime.strptime(s, "%Y-%m-%d %H:%M:%S")`:
   CPython compiles the format to the regex
   `(\d\d\d\d)-(1[0-2]|0[1-9]|[1-9])-(3[01]|[12]\d|0[1-9]|[1-9])\s+`
   `(2[0-3]|[0-1]\d|\d):([0-5]\d|\d):([0-5]\d|\d)` anchored at the start,
   rejects unconverted trailing data, and then the `datetime` constructor
   additionally validates the day against the month length and the year
   against MINYEAR = 1.  Because every field is followed by a non-digit
   delimiter (or end of string), the regex alternations reduce to:
   read the maximal digit run; 1 digit must satisfy the 1-digit
   alternative, 2 digits the 2-digit alternative, any other length fails.
   Digits and whitespace are modelled at ASCII (`Char.isDigit`,
   `isPySpace`); the unicode extensions of `\d` and `\s` are out of
   scope. -/

/-- ASCII approximation of the regex class matched by a literal space in
the format (CPython replaces it by the pattern for one-or-more
whitespace characters). -/
def isPySpace (c : Char) : Bool :=
  c = ' ' || c = '\t' || c = '\n' || c = '\r' || c = '\x0b' || c = '\x0c'

/-- Numeric value of a digit run (digits are ASCII by `Char.isDigit`). -/
def natOfDigits (ds : List Char) : Nat :=
  ds.foldl (fun acc c => 10 * acc + (c.toNat - 48)) 0

/-- Four-digit year field of the format, exactly four digits. -/
def parseYear (cs : List Char) : Option (Nat × List Char) :=
  let ds := cs.takeWhile Char.isDigit
  if ds.length = 4 then some (natOfDigits ds, cs.dropWhile Char.isDigit)
  else none

/-- One-or-two digit numeric field: `oneOk` is the 1-digit alternative of
the corresponding regex alternation, `twoOk` the 2-digit one. -/
def parseField (oneOk twoOk : Nat → Bool) (cs : List Char) :
    Option (Nat × List Char) :=
  let ds := cs.takeWhile Char.isDigit
  let rest := cs.dropWhile Char.isDigit
  match ds with
  | [d] => if oneOk (d.toNat - 48) then some (d.toNat - 48, rest) else none
  | [d1, d2] =>
      let v := 10 * (d1.toNat - 48) + (d2.toNat - 48)
      if twoOk v then some (v, rest) else none
  | _ => none

/-- Literal character of the format. -/
def parseLitChar (c : Char) (cs : List Char) : Option (List Char) :=
  match cs with
  | [] => none
  | x :: t => if x = c then some t else none

/-- One-or-more whitespace characters (a literal space in the format). -/
def parseSpaces (cs : List Char) : Option (List Char) :=
  match cs with
  | [] => none
  | x :: t => if isPySpace x then some (t.dropWhile isPySpace) else none

/-- Naive (proleptic Gregorian) datetime value, as produced by a
successful `datetime.strptime` call. -/
structure PyDateTime where
  year : Nat
  month : Nat
  day : Nat
  hour : Nat
  minute : Nat
  second : Nat
  deriving DecidableEq

def isLeapYear (y : Nat) : Bool :=
  (y % 4 = 0 && y % 100 ≠ 0) || y % 400 = 0

def daysInMonth (y m : Nat) : Nat :=
  if m = 2 then (if isLeapYear y then 29 else 28)
  else if m = 4 || m = 6 || m = 9 || m = 11 then 30
  else 31

/-- Model of `datetime.strptime(s, "%Y-%m-%d %H:%M:%S")`: the anchored
regex match described above, then the `datetime` constructor checks
(year at least 1; day within the month).  Returns the parsed fields or
nothing exactly when CPython raises `ValueError`. -/
def strptimeYmdHMS (s : String) : Option PyDateTime :=
  (parseYear s.data).bind fun yr =>
  (parseLitChar '-' yr.2).bind fun r2 =>
  (parseField (fun v => decide (1 ≤ v)) (fun v => decide (1 ≤ v ∧ v ≤ 12)) r2).bind fun mr =>
  (parseLitChar '-' mr.2).bind fun r4 =>
  (parseField (fun v => decide (1 ≤ v)) (fun v => decide (1 ≤ v ∧ v ≤ 31)) r4).bind fun dr =>
  (parseSpaces dr.2).bind fun r6 =>
  (parseField (fun _ => true) (fun v => decide (v ≤ 23)) r6).bind fun hr =>
  (parseLitChar ':' hr.2).bind fun r8 =>
  (parseField (fun _ => true) (fun v => decide (v ≤ 59)) r8).bind fun mir =>
  (parseLitChar ':' mir.2).bind fun r10 =>
  (parseField (fun _ => true) (fun v => decide (v ≤ 59)) r10).bind fun sr =>
  if sr.2 = [] ∧ 1 ≤ yr.1 ∧ dr.1 ≤ daysInMonth yr.1 mr.1 then
    some ⟨yr.1, mr.1, dr.1, hr.1, mir.1, sr.1⟩
  else none

/-- Rata-die style day number: days of the proleptic Gregorian calendar
before year `y` (matching `datetime.date.toordinal` up to the fixed
offset). -/
def daysBeforeYear (y : Nat) : Nat :=
  (y - 1) * 365 + (y - 1) / 4 - (y - 1) / 100 + (y - 1) / 400

def daysBeforeMonth (y m : Nat) : Nat :=
  (((List.range (m - 1)).map (fun i => daysInMonth y (i + 1)))).sum

/-- `datetime.date.toordinal`. -/
def toOrdinal (dt : PyDateTime) : Nat :=
  daysBeforeYear dt.year + daysBeforeMonth dt.year dt.month + dt.day

/-- Total seconds of a naive datetime on a fixed axis; `datetime`
comparison and subtraction agree with comparison and subtraction of
this value. -/
def toSecs (dt : PyDateTime) : Nat :=
  86400 * toOrdinal dt + 3600 * dt.hour + 60 * dt.minute + dt.second

/-- Embedding of `calculate_days_remaining` (lines 107-127).  The wall
clock (`datetime.now()`) is passed explicitly as `now`, in seconds on
the same axis as `toSecs`.  A failed parse raises
`ValueError`/`TypeError` in Python, caught and mapped to 0; a deadline
at or before `now` yields 0; otherwise `timedelta.days` is the whole-day
floor of the positive gap. -/
def calculate_days_remaining (now : Nat) (deadline_str : String) : Nat :=
  match strptimeYmdHMS deadline_str with
  | none => 0
  | some deadline =>
      if toSecs deadline ≤ now then 0
      else (toSecs deadline - now) / 86400

/- =====================  Embedded-payload extractor (§4.4)  ==============
   Embedding of `extract_json_from_page` (scraper.py lines 130-138):
   `re.search(r'<pre>(.+?)</pre>', page_content, re.DOTALL)` finds the
   leftmost position where `<pre>` matches and the lazy `(.+?)` takes the
   shortest non-empty content followed by `</pre>`; `json.loads` is
   abstracted as a parameter `parse` (returning `none` exactly when it
   raises `JSONDecodeError`, which the source catches and maps to
   `None`). -/

def preTag : List Char := "<pre>".data

def closeTag : List Char := "</pre>".data

/-- Leftmost index at which `needle` occurs as a contiguous sublist. -/
def findSub (needle : List Char) : List Char → Option Nat
  | [] => if needle = [] then some 0 else none
  | c :: t =>
      if needle.isPrefixOf (c :: t) then some 0
      else (findSub needle t).map (· + 1)

/-- Occurrence test used to specify `findSub`. -/
def occursAt (needle hay : List Char) (k : Nat) : Bool :=
  needle.isPrefixOf (hay.drop k)

/-- Content captured by the regex: leftmost `<pre>`, then the shortest
non-empty run of characters (newlines included, `re.DOTALL`) up to the
next `</pre>`; `5` is the length of the opening tag. -/
def findPreContent (s : String) : Option String :=
  match findSub preTag s.data with
  | none => none
  | some i =>
      let rest := s.data.drop (i + 5)
      match findSub closeTag (rest.drop 1) with
      | none => none
      | some j => some (String.mk (rest.take (j + 1)))

/-- Embedding of `extract_json_from_page` (lines 130-138): locate the
wrapped content, then attempt the structured parse; absence of the
wrapper or a parse failure yields `None` and nothing is raised. -/
def extract_json_from_page {α : Type} (parse : String → Option α)
    (page_content : String) : Option α :=
  match findPreContent page_content with
  | some content => parse content
  | none => none

end Bonfire

namespace Bonfire

/- =====================  Lemmas about `findSub`  ===================== -/

theorem occursAt_zero (needle hay : List Char) :
    occursAt needle hay 0 = needle.isPrefixOf hay := by
  unfold occursAt
  rw [List.drop_zero]

theorem occursAt_succ (needle : List Char) (c : Char) (t : List Char) (k : Nat) :
    occursAt needle (c :: t) (k + 1) = occursAt needle t k := by
  unfold occursAt
  rw [List.drop_succ_cons]

theorem occursAt_nil (needle : List Char) (k : Nat) :
    occursAt needle ([] : List Char) k = needle.isPrefixOf ([] : List Char) := by
  unfold occursAt
  rw [List.drop_nil]

theorem isPrefixOf_append_self (l t : List Char) :
    l.isPrefixOf (l ++ t) = true := by
  induction l with
  | nil => exact List.isPrefixOf_nil_left
  | cons a as ih =>
      rw [List.cons_append, List.isPrefixOf_cons₂, ih]
      simp

theorem findSub_some (needle hay : List Char) (i : Nat)
    (h1 : occursAt needle hay i = true)
    (h2 : ∀ k, k < i → occursAt needle hay k = false) :
    findSub needle hay = some i := by
  induction hay generalizing i with
  | nil =>
      rw [occursAt_nil] at h1
      cases hn : needle with
      | nil =>
          cases i with
          | zero => simp [findSub]
          | succ n =>
              have h0 := h2 0 (Nat.succ_pos n)
              rw [occursAt_nil, hn, List.isPrefixOf_nil_left] at h0
              exact Bool.noConfusion h0
      | cons a as =>
          rw [hn, List.isPrefixOf_cons_nil] at h1
          exact Bool.noConfusion h1
  | cons c t ih =>
      cases hb : needle.isPrefixOf (c :: t) with
      | true =>
          cases i with
          | zero =>
              simp only [findSub]
              rw [hb]
              rfl
          | succ n =>
              have h0 := h2 0 (Nat.succ_pos n)
              rw [occursAt_zero, hb] at h0
              exact Bool.noConfusion h0
      | false =>
          cases i with
          | zero =>
              rw [occursAt_zero, hb] at h1
              exact Bool.noConfusion h1
          | succ n =>
              rw [occursAt_succ] at h1
              have hlt : ∀ k, k < n → occursAt needle t k = false := by
                intro k hk
                have := h2 (k + 1) (Nat.succ_lt_succ hk)
                rwa [occursAt_succ] at this
              simp only [findSub]
              rw [hb, ih n h1 hlt]
              rfl

theorem findSub_none (needle hay : List Char) (hne : needle ≠ [])
    (h : ∀ k, k ≤ hay.length → occursAt needle hay k = false) :
    findSub needle hay = none := by
  induction hay with
  | nil =>
      simp only [findSub]
      rw [if_neg hne]
  | cons c t ih =>
      have h0 := h 0 (Nat.zero_le _)
      rw [occursAt_zero] at h0
      have ht : findSub needle t = none := by
        refine ih (fun k hk => ?_)
        have := h (k + 1) (Nat.succ_le_succ hk)
        rwa [occursAt_succ] at this
      simp only [findSub]
      rw [h0, ht]
      rfl

theorem string_mk_data (s : String) : String.mk s.data = s := rfl

/- =====================  Theorem for claim C8  ===================== -/

/-- Claim C8: `extract_json_from_page` is a pure function that, given
page text, returns the parsed JSON payload found between the first
non-greedy `<pre>...</pre>` wrapper (matching across newlines), and
returns nothing when the wrapper is absent or its content is malformed
JSON (`parse` returning `none` models the caught `JSONDecodeError`); it
never raises past its own boundary (it is a total function into
`Option`).  The first conjunct is the wrapper-absent case; the second
says that on `a ++ "<pre>" ++ c ++ "</pre>" ++ b`, where the named
occurrences are the first opening tag and the first closing tag after at
least one content character, the result is exactly `parse c`. -/
theorem claim_C8 {α : Type} (parse : String → Option α) :
    (∀ s : String,
        (∀ k, k ≤ s.data.length → occursAt preTag s.data k = false) →
        extract_json_from_page parse s = none) ∧
    (∀ a c b : String, c.data ≠ [] →
        (∀ k, k < a.data.length →
            occursAt preTag (a ++ "<pre>" ++ c ++ "</pre>" ++ b).data k = false) →
        (∀ k, k < c.data.length - 1 →
            occursAt closeTag (c.data.drop 1 ++ (closeTag ++ b.data)) k = false) →
        extract_json_from_page parse (a ++ "<pre>" ++ c ++ "</pre>" ++ b) = parse c) := by
  constructor
  · intro s h
    have hf : findSub preTag s.data = none := findSub_none _ _ (by decide) h
    simp only [extract_json_from_page, findPreContent, hf]
  · intro a c b hc hpre hclose
    set s := a ++ "<pre>" ++ c ++ "</pre>" ++ b with hs
    have hdata : s.data = a.data ++ (preTag ++ (c.data ++ (closeTag ++ b.data))) := by
      simp [hs, String.data_append, preTag, closeTag, List.append_assoc]
    have hocc1 : occursAt preTag s.data a.data.length = true := by
      unfold occursAt
      rw [hdata, List.drop_left]
      exact isPrefixOf_append_self _ _
    have hfind1 : findSub preTag s.data = some a.data.length :=
      findSub_some _ _ _ hocc1 hpre
    have hrest : s.data.drop (a.data.length + 5) = c.data ++ (closeTag ++ b.data) := by
      rw [hdata, List.drop_append]
      rw [show (5 : Nat) = preTag.length from rfl, List.drop_left]
    have hpos : 0 < c.data.length := List.length_pos.mpr hc
    have hdrop1 : (c.data ++ (closeTag ++ b.data)).drop 1 =
        c.data.drop 1 ++ (closeTag ++ b.data) :=
      List.drop_append_of_le_length hpos
    have hlen1 : (c.data.drop 1).length = c.data.length - 1 := by
      rw [List.length_drop]
    have hocc2 : occursAt closeTag (c.data.drop 1 ++ (closeTag ++ b.data))
        (c.data.length - 1) = true := by
      unfold occursAt
      rw [← hlen1, List.drop_left]
      exact isPrefixOf_append_self _ _
    have hfind2 : findSub closeTag (c.data.drop 1 ++ (closeTag ++ b.data)) =
        some (c.data.length - 1) :=
      findSub_some _ _ _ hocc2 hclose
    have hcontent : (c.data ++ (closeTag ++ b.data)).take (c.data.length - 1 + 1) =
        c.data := by
      have h1 : c.data.length - 1 + 1 = c.data.length := by omega
      rw [h1, List.take_left]
    simp only [extract_json_from_page, findPreContent, hfind1, hrest, hdrop1, hfind2,
      hcontent, string_mk_data]

/-- Witness for claim C8: a concrete page whose wrapped content spans a
newline is parsed, and a page without the wrapper yields nothing. -/
theorem claim_C8_witness :
    extract_json_from_page (fun t => some t.length)
        ("Header: " ++ "<pre>" ++ "alpha\nbeta" ++ "</pre>" ++ " trailer") =
      some 10 ∧
    extract_json_from_page (fun t => some t.length) "no wrapper here" = none :=
  ⟨((claim_C8 (fun t => some t.length)).2 "Header: " "alpha\nbeta" " trailer"
      (by decide) (by decide) (by decide)).trans (by decide),
   (claim_C8 (fun t => some t.length)).1 "no wrapper here" (by decide)⟩

/- =====================  Theorems for claim C3  ===================== -/

/-- Claim C3 (amended): `calculate_days_remaining` returns 0 for any
input that does not parse in the fixed `YYYY-MM-DD HH:MM:SS` format and
for any timestamp at or before the current time; for any timestamp
strictly in the future it returns the whole-day floor of the remaining
duration (which is 0 when less than one full day remains, e.g. a close
date 3 days and 4 hours ahead yields 3). -/
theorem claim_C3_amended :
    (∀ now s, strptimeYmdHMS s = none →
        calculate_days_remaining now s = 0) ∧
    (∀ now s dt, strptimeYmdHMS s = some dt → toSecs dt ≤ now →
        calculate_days_remaining now s = 0) ∧
    (∀ now s dt, strptimeYmdHMS s = some dt → now < toSecs dt →
        calculate_days_remaining now s = (toSecs dt - now) / 86400) := by
  refine ⟨?_, ?_, ?_⟩
  · intro now s h
    simp [calculate_days_remaining, h]
  · intro now s dt h hle
    simp [calculate_days_remaining, h, hle]
  · intro now s dt h hlt
    have : ¬ toSecs dt ≤ now := by omega
    simp [calculate_days_remaining, h, this]

/-- Claim C3 is false as stated: the timestamp `2026-01-01 04:00:00`
parses, is strictly in the future when "now" is `2026-01-01 00:00:00`,
yet `calculate_days_remaining` returns 0, which is not a positive
value. -/
theorem claim_C3_counterexample :
    strptimeYmdHMS "2026-01-01 04:00:00" = some ⟨2026, 1, 1, 4, 0, 0⟩ ∧
    toSecs ⟨2026, 1, 1, 0, 0, 0⟩ < toSecs ⟨2026, 1, 1, 4, 0, 0⟩ ∧
    calculate_days_remaining (toSecs ⟨2026, 1, 1, 0, 0, 0⟩)
      "2026-01-01 04:00:00" = 0 := by
  refine ⟨by decide, by decide, by decide⟩

/-- Witness for the amended claim C3: a close date 3 days and 4 hours in
the future yields 3 whole days. -/
theorem claim_C3_witness :
    calculate_days_remaining (toSecs ⟨2026, 1, 1, 12, 30, 0⟩)
      "2026-01-04 16:30:00" = 3 :=
  (claim_C3_amended.2.2 (toSecs ⟨2026, 1, 1, 12, 30, 0⟩)
      "2026-01-04 16:30:00" ⟨2026, 1, 4, 16, 30, 0⟩
      (by decide) (by decide)).trans (by decide)

/- ==============  Quota-bounded discovery engine (§4.2)  ==============
   Embedding of `BonfireScraper.fetch_agencies` (scraper.py lines
   258-349).  The remote endpoint together with the browser fetch and
   `extract_json_from_page` is abstracted as an oracle
   `fetch : page → attempt → FetchResult`; a parsed payload is either a
   JSON list whose usable elements are organization records (the
   `.get("OrganizationName", "")` / `.get("Domain", "")` accesses are
   modelled as string fields defaulting to `""`; a record on which an
   access raises is equivalent to one with an empty name, skipped by the
   per-record handler) or a JSON dict, of which the loop only observes
   the truthiness of its `"message"` entry and whether it is empty.
   `str.upper` on the one-character slice `name[0]` is modelled by
   `Char.toUpper` (ASCII case mapping). -/

structure OrgEntry where
  name : String
  domain : String
  deriving DecidableEq

structure Agency where
  agency_name : String
  agency_url : String
  deriving DecidableEq

/-- Configuration surface read by discovery: `TARGET_LETTERS`,
`AGENCIES_PER_LETTER`, `MAX_RETRIES`. -/
structure DiscoveryConfig where
  targetLetters : List Char
  agenciesPerLetter : Nat
  maxRetries : Nat
  deriving DecidableEq

/-- Record built for a bucketed organization (lines 321-324). -/
def orgRecord (o : OrgEntry) : Agency :=
  { agency_name := o.name, agency_url := "https://" ++ o.domain }

/-- Per-organization processing (lines 309-329): skip entries missing a
name or domain, bucket under the uppercased first character when it is a
target letter and the bucket is below quota. -/
def processOrg (cfg : DiscoveryConfig) (b : Char → List Agency) (o : OrgEntry) :
    Char → List Agency :=
  if o.name = "" ∨ o.domain = "" then b
  else
    if o.name.front.toUpper ∈ cfg.targetLetters then
      if (b o.name.front.toUpper).length < cfg.agenciesPerLetter then
        fun c => if c = o.name.front.toUpper
          then b o.name.front.toUpper ++ [orgRecord o] else b c
      else b
    else b

def processPage (cfg : DiscoveryConfig) (b : Char → List Agency)
    (orgs : List OrgEntry) : Char → List Agency :=
  orgs.foldl (processOrg cfg) b

/-- Parsed payload of one listing page as far as the loop observes it:
`jdict message isEmpty` records the truthiness of `.get("message")` and
of the dict itself (iterating a dict yields its keys, on which the
per-record accesses raise and are skipped, so no record is bucketed). -/
inductive PageJson where
  | jlist (orgs : List OrgEntry)
  | jdict (message : Bool) (isEmpty : Bool)
  deriving DecidableEq

/-- Outcome of one fetch attempt: an exception from navigation or page
read, or the result of `extract_json_from_page`. -/
inductive FetchResult where
  | exn
  | payload (j : Option PageJson)
  deriving DecidableEq

/-- Net effect of the per-page retry loop (lines 291-335): the first
non-raising attempt decides — end of data, or a page worth of
organization records to process (`processed []` for a non-empty dict
without a message, whose keys are all skipped); if every attempt raises
the loop falls through with no effect. -/
inductive PageStep where
  | ended
  | processed (orgs : List OrgEntry)
  | exhausted
  deriving DecidableEq

def pageStep : List FetchResult → PageStep
  | [] => .exhausted
  | .exn :: rest => pageStep rest
  | .payload none :: _ => .ended
  | .payload (some (.jlist orgs)) :: _ =>
      if orgs.isEmpty then .ended else .processed orgs
  | .payload (some (.jdict msg isEmpty)) :: _ =>
      if isEmpty then .ended
      else if msg then .ended
      else .processed []

/-- State update of the attempt loop for one page: new buckets and the
`reached_end` flag. -/
def runAttempts (cfg : DiscoveryConfig) (b : Char → List Agency)
    (outcomes : List FetchResult) : (Char → List Agency) × Bool :=
  match pageStep outcomes with
  | .ended => (b, true)
  | .processed orgs => (processPage cfg b orgs, false)
  | .exhausted => (b, false)

/-- The `all(...)` quota check performed before each page fetch
(lines 281-284). -/
def allFullB (cfg : DiscoveryConfig) (b : Char → List Agency) : Bool :=
  cfg.targetLetters.all (fun l => cfg.agenciesPerLetter ≤ (b l).length)

/-- The `MAX_RETRIES` attempt outcomes for one page. -/
def pageOutcomes (cfg : DiscoveryConfig) (fetch : Nat → Nat → FetchResult)
    (page : Nat) : List FetchResult :=
  (List.range cfg.maxRetries).map (fetch page)

/-- The `while not reached_end` pagination loop (lines 277-337), as a
fuel-indexed recursion; the second component is the `reached_end` / all
full flag (`false` only when the fuel ran out mid-run). -/
def fetchLoop (cfg : DiscoveryConfig) (fetch : Nat → Nat → FetchResult) :
    Nat → Nat → (Char → List Agency) → (Char → List Agency) × Bool
  | 0, _, b => (b, false)
  | fuel + 1, page, b =>
      if allFullB cfg b then (b, true)
      else
        match pageStep (pageOutcomes cfg fetch page) with
        | .ended => (b, true)
        | .processed orgs => fetchLoop cfg fetch fuel (page + 1) (processPage cfg b orgs)
        | .exhausted => fetchLoop cfg fetch fuel (page + 1) b

def emptyBuckets : Char → List Agency := fun _ => []

/-- The final combining step of `fetch_agencies` (lines 339-349): the
selected list is the per-letter buckets, in caller letter order, each
truncated to the quota. -/
def fetch_agencies (cfg : DiscoveryConfig) (fetch : Nat → Nat → FetchResult)
    (fuel : Nat) : List Agency :=
  let b := (fetchLoop cfg fetch fuel 1 emptyBuckets).1
  (cfg.targetLetters.map (fun l => (b l).take cfg.agenciesPerLetter)).flatten

/-- Specification-side trace: the organization entries processed by the
loop, in discovery order (page-cursor order, then encounter order within
a page). -/
def fetchTrace (cfg : DiscoveryConfig) (fetch : Nat → Nat → FetchResult) :
    Nat → Nat → (Char → List Agency) → List OrgEntry
  | 0, _, _ => []
  | fuel + 1, page, b =>
      if allFullB cfg b then []
      else
        match pageStep (pageOutcomes cfg fetch page) with
        | .ended => []
        | .processed orgs =>
            orgs ++ fetchTrace cfg fetch fuel (page + 1) (processPage cfg b orgs)
        | .exhausted => fetchTrace cfg fetch fuel (page + 1) b

/-- Eligibility of an organization entry for the bucket of letter `l`. -/
def eligB (cfg : DiscoveryConfig) (l : Char) (o : OrgEntry) : Bool :=
  decide (o.name ≠ "" ∧ o.domain ≠ "" ∧ o.name.front.toUpper = l ∧
    l ∈ cfg.targetLetters)

/-- A fetch attempt outcome that makes the loop set `reached_end`. -/
def endsDiscovery : FetchResult → Bool
  | .exn => false
  | .payload none => true
  | .payload (some (.jlist orgs)) => orgs.isEmpty
  | .payload (some (.jdict msg isEmpty)) => isEmpty || msg

/-- A shared default configuration matching `config/settings.py`. -/
def cfgD : DiscoveryConfig :=
  { targetLetters := ['D', 'G', 'J', 'L'], agenciesPerLetter := 5, maxRetries := 3 }

/- ==============  Lemmas about the discovery loop  ============== -/

theorem processOrg_apply (cfg : DiscoveryConfig) (b : Char → List Agency)
    (o : OrgEntry) (l : Char) :
    processOrg cfg b o l =
      if eligB cfg l o = true ∧ (b l).length < cfg.agenciesPerLetter
      then b l ++ [orgRecord o] else b l := by
  unfold processOrg eligB
  by_cases h1 : o.name = "" ∨ o.domain = ""
  · rcases h1 with h | h <;> simp [h]
  · have hn : ¬ o.name = "" := fun h => h1 (Or.inl h)
    have hd : ¬ o.domain = "" := fun h => h1 (Or.inr h)
    rw [if_neg h1]
    by_cases h2 : o.name.front.toUpper ∈ cfg.targetLetters
    · rw [if_pos h2]
      by_cases h3 : (b o.name.front.toUpper).length < cfg.agenciesPerLetter
      · rw [if_pos h3]
        by_cases h4 : l = o.name.front.toUpper
        · subst h4
          simp [hn, hd, h2, h3]
        · have he : ¬ (o.name.front.toUpper = l) := fun h => h4 h.symm
          simp [h4, he]
      · rw [if_neg h3]
        by_cases h4 : l = o.name.front.toUpper
        · subst h4
          simp [h3]
        · have he : ¬ (o.name.front.toUpper = l) := fun h => h4 h.symm
          simp [he]
    · rw [if_neg h2]
      have he : ¬ (o.name ≠ "" ∧ o.domain ≠ "" ∧ o.name.front.toUpper = l ∧
          l ∈ cfg.targetLetters) := by
        rintro ⟨-, -, hfl, hmem⟩
        exact h2 (hfl ▸ hmem)
      simp [he]

theorem processPage_eq (cfg : DiscoveryConfig) (orgs : List OrgEntry) :
    ∀ (b : Char → List Agency) (l : Char),
    processPage cfg b orgs l =
      b l ++ (((orgs.filter (eligB cfg l)).map orgRecord).take
        (cfg.agenciesPerLetter - (b l).length)) := by
  induction orgs with
  | nil => intro b l; simp [processPage]
  | cons o rest ih =>
      intro b l
      have step : processPage cfg b (o :: rest) =
          processPage cfg (processOrg cfg b o) rest := rfl
      rw [step, ih]
      cases hel : eligB cfg l o with
      | false =>
          have hb : processOrg cfg b o l = b l := by
            rw [processOrg_apply]
            simp [hel]
          rw [hb, List.filter_cons]
          simp [hel]
      | true =>
          by_cases hlt : (b l).length < cfg.agenciesPerLetter
          · have hb : processOrg cfg b o l = b l ++ [orgRecord o] := by
              rw [processOrg_apply]
              simp [hel, hlt]
            rw [hb, List.filter_cons]
            have hlen : (b l ++ [orgRecord o]).length = (b l).length + 1 := by simp
            rw [hlen]
            have hQ : cfg.agenciesPerLetter - (b l).length =
                (cfg.agenciesPerLetter - ((b l).length + 1)) + 1 := by omega
            rw [hQ]
            simp [hel, List.take_succ_cons]
          · have hb : processOrg cfg b o l = b l := by
              rw [processOrg_apply]
              simp [hel, hlt]
            rw [hb, List.filter_cons]
            have hQ : cfg.agenciesPerLetter - (b l).length = 0 := by omega
            rw [hQ]
            simp [hel]

theorem fetchLoop_fst (cfg : DiscoveryConfig) (fetch : Nat → Nat → FetchResult) :
    ∀ (fuel page : Nat) (b : Char → List Agency),
    (fetchLoop cfg fetch fuel page b).1 =
      processPage cfg b (fetchTrace cfg fetch fuel page b) := by
  intro fuel
  induction fuel with
  | zero => intro page b; rfl
  | succ n ih =>
      intro page b
      rw [fetchLoop, fetchTrace]
      by_cases hf : allFullB cfg b = true
      · rw [if_pos hf, if_pos hf]
        rfl
      · rw [if_neg hf, if_neg hf]
        cases hps : pageStep (pageOutcomes cfg fetch page) with
        | ended => rfl
        | processed orgs =>
            rw [ih]
            unfold processPage
            rw [List.foldl_append]
        | exhausted => exact ih _ _

theorem finalBucket (cfg : DiscoveryConfig) (fetch : Nat → Nat → FetchResult)
    (fuel : Nat) (l : Char) :
    (fetchLoop cfg fetch fuel 1 emptyBuckets).1 l =
      (((fetchTrace cfg fetch fuel 1 emptyBuckets).filter (eligB cfg l)).map
        orgRecord).take cfg.agenciesPerLetter := by
  rw [fetchLoop_fst, processPage_eq]
  simp [emptyBuckets]

theorem pageStep_all_exn :
    ∀ l : List FetchResult, (∀ x ∈ l, x = FetchResult.exn) →
      pageStep l = PageStep.exhausted := by
  intro l
  induction l with
  | nil => intro _; rfl
  | cons x t ih =>
      intro h
      have hx := h x (List.mem_cons_self x t)
      subst hx
      exact ih (fun y hy => h y (List.mem_cons_of_mem _ hy))

theorem pageStep_ended_of_head (r : FetchResult) (rest : List FetchResult)
    (h : endsDiscovery r = true) : pageStep (r :: rest) = PageStep.ended := by
  cases r with
  | exn => exact Bool.noConfusion h
  | payload j =>
      cases j with
      | none => rfl
      | some pj =>
          cases pj with
          | jlist orgs =>
              have h' : orgs.isEmpty = true := h
              simp [pageStep, h']
          | jdict msg isEmpty =>
              have h' : (isEmpty || msg) = true := h
              cases isEmpty <;> cases msg <;> simp_all [pageStep]

theorem fetchLoop_term (cfg : DiscoveryConfig) (fetch : Nat → Nat → FetchResult)
    (N : Nat) (hr : 0 < cfg.maxRetries)
    (hN : ∀ p a, N ≤ p → endsDiscovery (fetch p a) = true) :
    ∀ (fuel page : Nat) (b : Char → List Agency),
      N - page < fuel → (fetchLoop cfg fetch fuel page b).2 = true := by
  intro fuel
  induction fuel with
  | zero => intro page b h; exact absurd h (Nat.not_lt_zero _)
  | succ n ih =>
      intro page b h
      rw [fetchLoop]
      by_cases hf : allFullB cfg b = true
      · rw [if_pos hf]
      · rw [if_neg hf]
        by_cases hpage : N ≤ page
        · obtain ⟨m, hm⟩ : ∃ m, cfg.maxRetries = m + 1 := ⟨cfg.maxRetries - 1, by omega⟩
          have houts : pageOutcomes cfg fetch page =
              fetch page 0 :: (List.range m).map (fun i => fetch page (i + 1)) := by
            rw [pageOutcomes, hm, List.range_succ_eq_map, List.map_cons, List.map_map]
            rfl
          rw [houts, pageStep_ended_of_head _ _ (hN page 0 hpage)]
        · cases hps : pageStep (pageOutcomes cfg fetch page) with
          | ended => rfl
          | processed orgs => exact ih (page + 1) _ (by omega)
          | exhausted => exact ih (page + 1) b (by omega)

/- ==============  Theorems for claims C1, C2, C5, C7  ============== -/

/-- Claim C1: for every per-letter quota and target-letter set
(`cfg`), discovery never places more than the quota into any letter
bucket, never places an organization into a bucket whose letter is not
the uppercased first character of its name, skips entries missing a name
or a domain, and each bucketed record has agency name equal to the
organization name and url `"https://" ++ domain`. -/
theorem claim_C1 (cfg : DiscoveryConfig) (fetch : Nat → Nat → FetchResult)
    (fuel : Nat) (l : Char) :
    ((fetchLoop cfg fetch fuel 1 emptyBuckets).1 l).length ≤ cfg.agenciesPerLetter ∧
    ∀ rec ∈ (fetchLoop cfg fetch fuel 1 emptyBuckets).1 l,
      ∃ o : OrgEntry, o.name ≠ "" ∧ o.domain ≠ "" ∧ o.name.front.toUpper = l ∧
        rec.agency_name = o.name ∧ rec.agency_url = "https://" ++ o.domain := by
  constructor
  · rw [finalBucket]
    exact List.length_take_le _ _
  · intro rec hrec
    rw [finalBucket] at hrec
    obtain ⟨o, ho, rfl⟩ := List.mem_map.mp (List.mem_of_mem_take hrec)
    have he := List.of_mem_filter ho
    rw [eligB, decide_eq_true_eq] at he
    obtain ⟨hn, hd, hfl, _⟩ := he
    exact ⟨o, hn, hd, hfl, rfl, rfl⟩

/-- Witness for claim C1 at a concrete configuration and fetch oracle. -/
theorem claim_C1_witness :
    (((fetchLoop cfgD
        (fun _ _ => FetchResult.payload (some (PageJson.jlist
          [⟨"Delta Corp", "delta.example"⟩]))) 1 1 emptyBuckets).1 'D').length ≤
      cfgD.agenciesPerLetter) ∧
    (∃ o : OrgEntry, o.name ≠ "" ∧ o.domain ≠ "" ∧ o.name.front.toUpper = 'D' ∧
      (Agency.mk "Delta Corp" "https://delta.example").agency_name = o.name ∧
      (Agency.mk "Delta Corp" "https://delta.example").agency_url =
        "https://" ++ o.domain) :=
  ⟨(claim_C1 cfgD
      (fun _ _ => FetchResult.payload (some (PageJson.jlist
        [⟨"Delta Corp", "delta.example"⟩]))) 1 'D').1,
   (claim_C1 cfgD
      (fun _ _ => FetchResult.payload (some (PageJson.jlist
        [⟨"Delta Corp", "delta.example"⟩]))) 1 'D').2
      ⟨"Delta Corp", "https://delta.example"⟩ (by decide)⟩

/-- Claim C2 is false as stated: on an attempt where the extractor
returns nothing, the page loop does not retry the page — it ends
discovery.  Concretely, with a first attempt extracting nothing and a
second attempt that would deliver `Delta Corp`, the loop reports
`reached_end` with an empty bucket, while running the remaining attempts
(what a retry would do, and what happens for an exception) would bucket
`Delta Corp` and continue. -/
theorem claim_C2_counterexample :
    (runAttempts cfgD emptyBuckets
        [FetchResult.payload none,
         FetchResult.payload (some (PageJson.jlist
           [⟨"Delta Corp", "delta.example"⟩]))]).2 = true ∧
    (runAttempts cfgD emptyBuckets
        [FetchResult.payload (some (PageJson.jlist
          [⟨"Delta Corp", "delta.example"⟩]))]).2 = false ∧
    (runAttempts cfgD emptyBuckets
        [FetchResult.payload none,
         FetchResult.payload (some (PageJson.jlist
           [⟨"Delta Corp", "delta.example"⟩]))]).1 'D' = [] ∧
    (runAttempts cfgD emptyBuckets
        [FetchResult.payload (some (PageJson.jlist
          [⟨"Delta Corp", "delta.example"⟩]))]).1 'D' =
      [⟨"Delta Corp", "https://delta.example"⟩] := by
  refine ⟨rfl, rfl, rfl, by decide⟩

/-- Claim C2 (amended): during discovery an attempt that raises is
retried (the next attempt of the same page proceeds), and after a page
whose every attempt raises, the loop advances the page cursor without
aborting discovery; an attempt on which the extractor returns nothing is
not retried — it ends discovery immediately, treated as end of data. -/
theorem claim_C2_amended :
    (∀ (cfg : DiscoveryConfig) (b : Char → List Agency) (rest : List FetchResult),
        runAttempts cfg b (FetchResult.exn :: rest) = runAttempts cfg b rest) ∧
    (∀ (cfg : DiscoveryConfig) (b : Char → List Agency) (rest : List FetchResult),
        runAttempts cfg b (FetchResult.payload none :: rest) = (b, true)) ∧
    (∀ (cfg : DiscoveryConfig) (fetch : Nat → Nat → FetchResult)
        (fuel page : Nat) (b : Char → List Agency),
        (∀ a, fetch page a = FetchResult.exn) → allFullB cfg b = false →
        fetchLoop cfg fetch (fuel + 1) page b = fetchLoop cfg fetch fuel (page + 1) b) := by
  refine ⟨fun _ _ _ => rfl, fun _ _ _ => rfl, ?_⟩
  intro cfg fetch fuel page b hfetch hfull
  have hall : ∀ x ∈ pageOutcomes cfg fetch page, x = FetchResult.exn := by
    intro x hx
    rw [pageOutcomes] at hx
    obtain ⟨a, _, rfl⟩ := List.mem_map.mp hx
    exact hfetch a
  have hps := pageStep_all_exn _ hall
  rw [fetchLoop, if_neg (by simp [hfull]), hps]

/-- Witness for the amended claim C2: a page whose three attempts all
raise advances the cursor to the next page. -/
theorem claim_C2_witness :
    fetchLoop cfgD (fun _ _ => FetchResult.exn) 1 1 emptyBuckets =
      fetchLoop cfgD (fun _ _ => FetchResult.exn) 0 2 emptyBuckets :=
  claim_C2_amended.2.2 cfgD (fun _ _ => FetchResult.exn) 0 1 emptyBuckets
    (fun _ => rfl) (by decide)

/-- Claim C5: once a fetched page is empty, the extractor returns
nothing, or the source returns an error mapping with a message field,
the loop stops; and for every eventually-empty paginated source
discovery terminates within a bounded number of pages, even when the
per-letter quotas can never be reached. -/
theorem claim_C5 :
    (∀ (cfg : DiscoveryConfig) (fetch : Nat → Nat → FetchResult)
        (fuel page : Nat) (b : Char → List Agency),
        pageStep (pageOutcomes cfg fetch page) = PageStep.ended →
        fetchLoop cfg fetch (fuel + 1) page b = (b, true)) ∧
    (∀ (cfg : DiscoveryConfig) (fetch : Nat → Nat → FetchResult) (N : Nat),
        0 < cfg.maxRetries →
        (∀ p a, N ≤ p → endsDiscovery (fetch p a) = true) →
        ∀ b : Char → List Agency, (fetchLoop cfg fetch (N + 1) 1 b).2 = true) := by
  constructor
  · intro cfg fetch fuel page b hps
    rw [fetchLoop]
    by_cases hf : allFullB cfg b = true
    · rw [if_pos hf]
    · rw [if_neg hf, hps]
  · intro cfg fetch N hr hN b
    exact fetchLoop_term cfg fetch N hr hN (N + 1) 1 b (by omega)

/-- Witness for claim C5: a source that is empty from the first page
stops the loop at once, with the termination flag set. -/
theorem claim_C5_witness :
    fetchLoop cfgD (fun _ _ => FetchResult.payload none) 1 1 emptyBuckets =
      (emptyBuckets, true) ∧
    (fetchLoop cfgD (fun _ _ => FetchResult.payload none) 1 1 emptyBuckets).2 = true :=
  ⟨claim_C5.1 cfgD (fun _ _ => FetchResult.payload none) 0 1 emptyBuckets (by decide),
   claim_C5.2 cfgD (fun _ _ => FetchResult.payload none) 0 (by decide)
     (fun _ _ _ => rfl) emptyBuckets⟩

/-- Claim C7: the final list returned by discovery is the concatenation,
in the caller-specified target-letter order, of the per-letter buckets
truncated to the quota, and each bucket consists of the eligible
organizations in discovery order (page-cursor order, then encounter
order within a page). -/
theorem claim_C7 (cfg : DiscoveryConfig) (fetch : Nat → Nat → FetchResult)
    (fuel : Nat) :
    fetch_agencies cfg fetch fuel =
      (cfg.targetLetters.map (fun l =>
        (((fetchTrace cfg fetch fuel 1 emptyBuckets).filter (eligB cfg l)).map
          orgRecord).take cfg.agenciesPerLetter)).flatten := by
  unfold fetch_agencies
  refine congrArg List.flatten (List.map_congr_left ?_)
  intro l _
  rw [finalBucket, List.take_take, Nat.min_self]

/- ==============  Per-agency harvester (§4.3)  ==============
   Embedding of `scrape_open_opportunities` (scraper.py lines 351-417)
   and `scrape_past_opportunities` (lines 419-489).  One attempt of the
   per-feed retry loop is abstracted as a `HarvestAttempt`; the raw
   project record's `.get(..., "")` accesses are modelled as string
   fields defaulting to `""` (`ProjectSubStatusID` already passed
   through `str(...)`). -/

structure ProjData where
  referenceID : String
  projectName : String
  dateClose : String
  subStatusID : String
  deriving DecidableEq

/-- An element of the projects collection: a dict record, or a non-dict
value (skipped by the `isinstance` guard). -/
inductive PItem where
  | item (p : ProjData)
  | nonDict
  deriving DecidableEq

/-- The `payload.projects` field: a keyed mapping (its `values()` in
order), a plain list, or anything else (normalized to no items). -/
inductive ProjField where
  | fdict (vals : List PItem)
  | flist (vals : List PItem)
  | fother
  deriving DecidableEq

def projectItems : ProjField → List PItem
  | .fdict vs => vs
  | .flist vs => vs
  | .fother => []

/-- Outcome of one attempt of a feed's retry loop: an exception escaped
to the attempt's handler (navigation or page read raised, or the payload
was a truthy non-dict so the `.get` chain raised), the extractor
returned `None` or a falsy payload (`continue`), or a truthy dict
payload with its (possibly missing, hence `fother` → no items)
projects collection. -/
inductive HarvestAttempt where
  | exn
  | noData
  | okDict (projects : ProjField)
  deriving DecidableEq

/-- The closed `status_map` of the past-feed harvester
(lines 455-459, applied with default `"Unknown"` at line 476). -/
def statusMap (code : String) : String :=
  match code with
  | "1" => "Closed"
  | "2" => "Cancelled"
  | "3" => "Awarded"
  | _ => "Unknown"

structure OpenOpp where
  status : String
  refference : String
  projectName : String
  closedDate : String
  daysLeft : Nat
  deriving DecidableEq

structure PastOpp where
  status : String
  refference : String
  projectName : String
  closedDate : String
  deriving DecidableEq

/-- Open-feed record construction (lines 398-407): status fixed to
`"Open"`, days left recomputed locally when a close date is present. -/
def openOppOf (now : Nat) (p : ProjData) : OpenOpp :=
  { status := "Open", refference := p.referenceID, projectName := p.projectName,
    closedDate := p.dateClose,
    daysLeft := if p.dateClose = "" then 0
      else calculate_days_remaining now p.dateClose }

/-- Past-feed record construction (lines 473-480): status via the
closed code table defaulting to `"Unknown"`. -/
def pastOppOf (p : ProjData) : PastOpp :=
  { status := statusMap p.subStatusID, refference := p.referenceID,
    projectName := p.projectName, closedDate := p.dateClose }

def openItems (now : Nat) (pf : ProjField) : List OpenOpp :=
  (projectItems pf).filterMap fun it =>
    match it with
    | .item p => some (openOppOf now p)
    | .nonDict => none

def pastItems (pf : ProjField) : List PastOpp :=
  (projectItems pf).filterMap fun it =>
    match it with
    | .item p => some (pastOppOf p)
    | .nonDict => none

/-- The open-feed retry loop: the first attempt with a truthy dict
payload decides; `none` when every attempt failed. -/
def openAttemptLoop (now : Nat) : List HarvestAttempt → Option (List OpenOpp)
  | [] => none
  | .exn :: rest => openAttemptLoop now rest
  | .noData :: rest => openAttemptLoop now rest
  | .okDict pf :: _ => some (openItems now pf)

def pastAttemptLoop : List HarvestAttempt → Option (List PastOpp)
  | [] => none
  | .exn :: rest => pastAttemptLoop rest
  | .noData :: rest => pastAttemptLoop rest
  | .okDict pf :: _ => some (pastItems pf)

structure OpenResult where
  url : String
  agencyName : String
  opportunities : List OpenOpp
  deriving DecidableEq

structure PastResult where
  url : String
  agencyName : String
  opportunities : List PastOpp
  deriving DecidableEq

/-- Embedding of `scrape_open_opportunities`: the result dict is
initialized with an empty opportunity list and only overwritten by a
successful attempt; the function always returns (never raises). -/
def scrape_open_opportunities (now : Nat) (agency : Agency)
    (attempts : List HarvestAttempt) : OpenResult :=
  { url := agency.agency_url ++ "/portal/?tab=openOpportunities",
    agencyName := agency.agency_name,
    opportunities := (openAttemptLoop now attempts).getD [] }

/-- Embedding of `scrape_past_opportunities`. -/
def scrape_past_opportunities (agency : Agency)
    (attempts : List HarvestAttempt) : PastResult :=
  { url := agency.agency_url ++ "/portal/?tab=pastOpportunities",
    agencyName := agency.agency_name,
    opportunities := (pastAttemptLoop attempts).getD [] }

/- ==============  Orchestrator & checkpoints (§4.6)  ==============
   Embedding of `scrape_all_opportunities` (lines 491-517) and
   `_save_progress` (lines 519-530): the two accumulator lists, and the
   trace of checkpoint writes (each write overwrites the files with the
   full accumulated snapshot). -/

structure HarvestState where
  openOpps : List OpenResult
  pastOpps : List PastResult
  saves : List (List OpenResult × List PastResult)
  deriving DecidableEq

/-- One iteration of the orchestrator loop: harvest both feeds of one
agency, append each exactly once, then checkpoint the full snapshot. -/
def harvestStep (now : Nat) (fo fp : Agency → List HarvestAttempt)
    (st : HarvestState) (ag : Agency) : HarvestState :=
  let od := scrape_open_opportunities now ag (fo ag)
  let pd := scrape_past_opportunities ag (fp ag)
  let os := st.openOpps ++ [od]
  let ps := st.pastOpps ++ [pd]
  { openOpps := os, pastOpps := ps, saves := st.saves ++ [(os, ps)] }

def scrape_all_opportunities (now : Nat) (fo fp : Agency → List HarvestAttempt)
    (agencies : List Agency) : HarvestState :=
  agencies.foldl (harvestStep now fo fp) ⟨[], [], []⟩

/-- Specification-side closed form of the orchestrator state after
processing `ags`: one result per agency per feed in order, and one
checkpoint per agency holding the complete snapshot of the first `i + 1`
fully processed agencies. -/
def stateOf (now : Nat) (fo fp : Agency → List HarvestAttempt)
    (ags : List Agency) : HarvestState :=
  { openOpps := ags.map (fun a => scrape_open_opportunities now a (fo a)),
    pastOpps := ags.map (fun a => scrape_past_opportunities a (fp a)),
    saves := (List.range ags.length).map (fun i =>
      ((ags.take (i + 1)).map (fun a => scrape_open_opportunities now a (fo a)),
       (ags.take (i + 1)).map (fun a => scrape_past_opportunities a (fp a)))) }

/- ==============  Lemmas about the harvester  ============== -/

theorem openAttemptLoop_all_failed (now : Nat) :
    ∀ attempts : List HarvestAttempt,
      (∀ a ∈ attempts, a = HarvestAttempt.exn ∨ a = HarvestAttempt.noData) →
      openAttemptLoop now attempts = none := by
  intro attempts
  induction attempts with
  | nil => intro _; rfl
  | cons a t ih =>
      intro h
      rcases h a (List.mem_cons_self a t) with rfl | rfl <;>
        exact ih (fun y hy => h y (List.mem_cons_of_mem _ hy))

theorem pastAttemptLoop_all_failed :
    ∀ attempts : List HarvestAttempt,
      (∀ a ∈ attempts, a = HarvestAttempt.exn ∨ a = HarvestAttempt.noData) →
      pastAttemptLoop attempts = none := by
  intro attempts
  induction attempts with
  | nil => intro _; rfl
  | cons a t ih =>
      intro h
      rcases h a (List.mem_cons_self a t) with rfl | rfl <;>
        exact ih (fun y hy => h y (List.mem_cons_of_mem _ hy))

theorem openAttemptLoop_first_success (now : Nat) (pf : ProjField)
    (post : List HarvestAttempt) :
    ∀ pre : List HarvestAttempt,
      (∀ a ∈ pre, a = HarvestAttempt.exn ∨ a = HarvestAttempt.noData) →
      openAttemptLoop now (pre ++ HarvestAttempt.okDict pf :: post) =
        some (openItems now pf) := by
  intro pre
  induction pre with
  | nil => intro _; rfl
  | cons a t ih =>
      intro h
      rcases h a (List.mem_cons_self a t) with rfl | rfl <;>
        exact ih (fun y hy => h y (List.mem_cons_of_mem _ hy))

theorem pastAttemptLoop_first_success (pf : ProjField)
    (post : List HarvestAttempt) :
    ∀ pre : List HarvestAttempt,
      (∀ a ∈ pre, a = HarvestAttempt.exn ∨ a = HarvestAttempt.noData) →
      pastAttemptLoop (pre ++ HarvestAttempt.okDict pf :: post) =
        some (pastItems pf) := by
  intro pre
  induction pre with
  | nil => intro _; rfl
  | cons a t ih =>
      intro h
      rcases h a (List.mem_cons_self a t) with rfl | rfl <;>
        exact ih (fun y hy => h y (List.mem_cons_of_mem _ hy))

/- ==============  Theorems for claims C4, C6, C9  ============== -/

/-- Claim C4: for every agency, if all bounded retry attempts for a feed
fail (exception or missing payload on every attempt), the harvesters
return a result with an empty opportunities list and never raise (they
are total functions); retrying stops on the first attempt whose
extraction succeeds — the result is decided by the first successful
attempt, independent of any later attempts, even when it yields zero
opportunities. -/
theorem claim_C4 :
    (∀ (now : Nat) (ag : Agency) (attempts : List HarvestAttempt),
        (∀ a ∈ attempts, a = HarvestAttempt.exn ∨ a = HarvestAttempt.noData) →
        (scrape_open_opportunities now ag attempts).opportunities = [] ∧
        (scrape_past_opportunities ag attempts).opportunities = []) ∧
    (∀ (now : Nat) (ag : Agency) (pre : List HarvestAttempt) (pf : ProjField)
        (post : List HarvestAttempt),
        (∀ a ∈ pre, a = HarvestAttempt.exn ∨ a = HarvestAttempt.noData) →
        scrape_open_opportunities now ag (pre ++ HarvestAttempt.okDict pf :: post) =
          ⟨ag.agency_url ++ "/portal/?tab=openOpportunities", ag.agency_name,
            openItems now pf⟩ ∧
        scrape_past_opportunities ag (pre ++ HarvestAttempt.okDict pf :: post) =
          ⟨ag.agency_url ++ "/portal/?tab=pastOpportunities", ag.agency_name,
            pastItems pf⟩) := by
  constructor
  · intro now ag attempts h
    constructor
    · simp [scrape_open_opportunities, openAttemptLoop_all_failed now attempts h]
    · simp [scrape_past_opportunities, pastAttemptLoop_all_failed attempts h]
  · intro now ag pre pf post h
    constructor
    · simp [scrape_open_opportunities, openAttemptLoop_first_success now pf post pre h]
    · simp [scrape_past_opportunities, pastAttemptLoop_first_success pf post pre h]

/-- Witness for claim C4: two failed attempts yield empty lists; a first
successful attempt with an absent projects collection (zero
opportunities) decides the result even though a later attempt holds a
project. -/
theorem claim_C4_witness :
    (scrape_open_opportunities 0 ⟨"Acme", "https://acme.example"⟩
        [HarvestAttempt.exn, HarvestAttempt.noData]).opportunities = [] ∧
    (scrape_past_opportunities ⟨"Acme", "https://acme.example"⟩
        [HarvestAttempt.exn, HarvestAttempt.noData]).opportunities = [] ∧
    scrape_open_opportunities 0 ⟨"Acme", "https://acme.example"⟩
        [HarvestAttempt.exn, HarvestAttempt.noData,
         HarvestAttempt.okDict ProjField.fother,
         HarvestAttempt.okDict (ProjField.flist [PItem.item ⟨"R1", "P1", "", "1"⟩])] =
      ⟨"https://acme.example" ++ "/portal/?tab=openOpportunities", "Acme",
        openItems 0 ProjField.fother⟩ ∧
    scrape_past_opportunities ⟨"Acme", "https://acme.example"⟩
        [HarvestAttempt.exn, HarvestAttempt.noData,
         HarvestAttempt.okDict ProjField.fother,
         HarvestAttempt.okDict (ProjField.flist [PItem.item ⟨"R1", "P1", "", "1"⟩])] =
      ⟨"https://acme.example" ++ "/portal/?tab=pastOpportunities", "Acme",
        pastItems ProjField.fother⟩ :=
  ⟨(claim_C4.1 0 ⟨"Acme", "https://acme.example"⟩
      [HarvestAttempt.exn, HarvestAttempt.noData] (by decide)).1,
   (claim_C4.1 0 ⟨"Acme", "https://acme.example"⟩
      [HarvestAttempt.exn, HarvestAttempt.noData] (by decide)).2,
   (claim_C4.2 0 ⟨"Acme", "https://acme.example"⟩
      [HarvestAttempt.exn, HarvestAttempt.noData] ProjField.fother
      [HarvestAttempt.okDict (ProjField.flist [PItem.item ⟨"R1", "P1", "", "1"⟩])]
      (by decide)).1,
   (claim_C4.2 0 ⟨"Acme", "https://acme.example"⟩
      [HarvestAttempt.exn, HarvestAttempt.noData] ProjField.fother
      [HarvestAttempt.okDict (ProjField.flist [PItem.item ⟨"R1", "P1", "", "1"⟩])]
      (by decide)).2⟩

/-- Claim C6: the raw past-feed status code is mapped through the closed
table `"1"` → Closed, `"2"` → Cancelled, `"3"` → Awarded, and every
other code (including the empty string produced by a missing field)
yields `"Unknown"`; the mapping is a total function and every past
record's status goes through it. -/
theorem claim_C6 :
    statusMap "1" = "Closed" ∧ statusMap "2" = "Cancelled" ∧
    statusMap "3" = "Awarded" ∧
    (∀ code : String, code ≠ "1" → code ≠ "2" → code ≠ "3" →
        statusMap code = "Unknown") ∧
    (∀ p : ProjData, (pastOppOf p).status = statusMap p.subStatusID) := by
  refine ⟨rfl, rfl, rfl, ?_, fun _ => rfl⟩
  intro code h1 h2 h3
  unfold statusMap
  split <;> simp_all

/-- Witness for claim C6: the empty (missing) code and an unmapped code
both yield `"Unknown"`. -/
theorem claim_C6_witness :
    statusMap "" = "Unknown" ∧ statusMap "42" = "Unknown" :=
  ⟨claim_C6.2.2.2.1 "" (by decide) (by decide) (by decide),
   claim_C6.2.2.2.1 "42" (by decide) (by decide) (by decide)⟩

theorem foldl_harvest (now : Nat) (fo fp : Agency → List HarvestAttempt) :
    ∀ (ags L : List Agency),
      ags.foldl (harvestStep now fo fp) (stateOf now fo fp L) =
        stateOf now fo fp (L ++ ags) := by
  intro ags
  induction ags with
  | nil => intro L; simp
  | cons a t ih =>
      intro L
      rw [List.foldl_cons]
      have hstep : harvestStep now fo fp (stateOf now fo fp L) a =
          stateOf now fo fp (L ++ [a]) := by
        unfold harvestStep stateOf
        have htk : ∀ i, i ∈ List.range L.length →
            (L ++ [a]).take (i + 1) = L.take (i + 1) := by
          intro i hi
          exact List.take_append_of_le_length (List.mem_range.mp hi)
        have hfull : (L ++ [a]).take (L.length + 1) = L ++ [a] := by
          apply List.take_of_length_le
          simp
        simp only [List.map_append, List.map_cons, List.map_nil,
          List.length_append, List.length_cons, List.length_nil,
          List.range_succ, hfull, HarvestState.mk.injEq]
        refine ⟨trivial, trivial, ?_⟩
        congr 1
        refine List.map_congr_left ?_
        intro i hi
        rw [htk i hi]
      rw [hstep, ih]
      simp

/-- Claim C9: during the harvest loop exactly one result entry per
agency per feed-type is appended to each accumulator, regardless of
internal retries, and every checkpoint written is the full snapshot of
all fully processed agencies so far — a checkpoint never contains a
partially processed agency. -/
theorem claim_C9 (now : Nat) (fo fp : Agency → List HarvestAttempt)
    (ags : List Agency) :
    scrape_all_opportunities now fo fp ags = stateOf now fo fp ags ∧
    (scrape_all_opportunities now fo fp ags).openOpps.length = ags.length ∧
    (scrape_all_opportunities now fo fp ags).pastOpps.length = ags.length ∧
    (scrape_all_opportunities now fo fp ags).saves.length = ags.length := by
  have h0 : (⟨[], [], []⟩ : HarvestState) = stateOf now fo fp [] := rfl
  have h : scrape_all_opportunities now fo fp ags = stateOf now fo fp ags := by
    rw [scrape_all_opportunities, h0, foldl_harvest, List.nil_append]
  refine ⟨h, ?_, ?_, ?_⟩ <;> rw [h] <;> simp [stateOf]

/- ==============  Authenticated session (§4.1)  ==============
   Embedding of `BonfireScraper.login` (scraper.py lines 186-256).  The
   browser is abstracted as the outcome of each interaction in sequence:
   `Except Unit` models a raised exception (caught by the outer
   `try`/`except`), `Option Unit` a located-or-missing element returned
   by a `raise_exc=False` query.  The `asyncio.sleep` calls and the
   logging cannot fail and are omitted.  The password field is sought
   through the ordered selector list, first match wins. -/

structure LoginEnv where
  goto : Except Unit Unit
  queryEmail : Except Unit (Option Unit)
  typeEmail : Except Unit Unit
  queryContinue : Except Unit (Option Unit)
  clickContinue : Except Unit Unit
  queryPwdSel : String → Except Unit (Option Unit)
  typePwd : Except Unit Unit
  queryLogin : Except Unit (Option Unit)
  clickLogin : Except Unit Unit

/-- The ordered password selector candidates (lines 223-227). -/
def password_selectors : List String :=
  ["input#password", "input[type=\x27password\x27]", "//input[@type=\x27password\x27]"]

/-- The selector fallback loop (lines 229-233): try each selector until
one query returns an element; the loop's final value is the last query
result. -/
def findPwdField (q : String → Except Unit (Option Unit)) :
    List String → Except Unit (Option Unit)
  | [] => .ok none
  | s :: rest =>
      match q s with
      | .error e => .error e
      | .ok (some f) => .ok (some f)
      | .ok none => findPwdField q rest

/-- Body of the `try` block of `login`: sequential interactions with
early `False` returns on missing elements, `True` once the password was
typed — the final submit button is clicked only if found, and its
absence does not change the result. -/
def loginRun (env : LoginEnv) : Except Unit Bool :=
  match env.goto with
  | .error e => .error e
  | .ok _ =>
  match env.queryEmail with
  | .error e => .error e
  | .ok none => .ok false
  | .ok (some _) =>
  match env.typeEmail with
  | .error e => .error e
  | .ok _ =>
  match env.queryContinue with
  | .error e => .error e
  | .ok none => .ok false
  | .ok (some _) =>
  match env.clickContinue with
  | .error e => .error e
  | .ok _ =>
  match findPwdField env.queryPwdSel password_selectors with
  | .error e => .error e
  | .ok none => .ok false
  | .ok (some _) =>
  match env.typePwd with
  | .error e => .error e
  | .ok _ =>
  match env.queryLogin with
  | .error e => .error e
  | .ok none => .ok true
  | .ok (some _) =>
      match env.clickLogin with
      | .error e => .error e
      | .ok _ => .ok true

/-- Embedding of `login`: any exception in the sequence is caught and
converted to `False` (lines 254-256); the function is total, so no
exception propagates. -/
def login (env : LoginEnv) : Bool :=
  match loginRun env with
  | .ok b => b
  | .error _ => false

/- ==============  Theorem for claim C10  ============== -/

/-- Claim C10: `login` returns `True` exactly when the email field,
continue button and password field are all located and typed into
without an exception — even if the final password-submit button is never
found (`queryLogin = .ok none` still yields `True`); the only `False`
returns are a missing email field, a missing continue button, a missing
password field, or a caught exception.  `login` is a total function into
`Bool`, so no exception propagates out of it. -/
theorem claim_C10 (env : LoginEnv) :
    login env = true ↔
      (env.goto = .ok () ∧ env.queryEmail = .ok (some ()) ∧
       env.typeEmail = .ok () ∧ env.queryContinue = .ok (some ()) ∧
       env.clickContinue = .ok () ∧
       findPwdField env.queryPwdSel password_selectors = .ok (some ()) ∧
       env.typePwd = .ok () ∧
       (env.queryLogin = .ok none ∨
        (env.queryLogin = .ok (some ()) ∧ env.clickLogin = .ok ()))) := by
  obtain ⟨g, qe, te, qc, cc, qp, tp, ql, cl⟩ := env
  dsimp only [login, loginRun]
  generalize findPwdField qp password_selectors = pf
  rcases g with ⟨⟨⟩⟩ | ⟨⟨⟩⟩
  · simp
  · rcases qe with ⟨⟨⟩⟩ | ⟨_ | ⟨⟨⟩⟩⟩
    · simp
    · simp
    · rcases te with ⟨⟨⟩⟩ | ⟨⟨⟩⟩
      · simp
      · rcases qc with ⟨⟨⟩⟩ | ⟨_ | ⟨⟨⟩⟩⟩
        · simp
        · simp
        · rcases cc with ⟨⟨⟩⟩ | ⟨⟨⟩⟩
          · simp
          · rcases pf with ⟨⟨⟩⟩ | ⟨_ | ⟨⟨⟩⟩⟩
            · simp
            · simp
            · rcases tp with ⟨⟨⟩⟩ | ⟨⟨⟩⟩
              · simp
              · rcases ql with ⟨⟨⟩⟩ | ⟨_ | ⟨⟨⟩⟩⟩
                · simp
                · simp
                · rcases cl with ⟨⟨⟩⟩ | ⟨⟨⟩⟩
                  · simp
                  · simp

/-- Witness for claim C10: a run where every step succeeds but the
final submit button is never found still returns `True`. -/
theorem claim_C10_witness :
    login ⟨.ok (), .ok (some ()), .ok (), .ok (some ()), .ok (),
      (fun _ => .ok (some ())), .ok (), .ok none, .ok ()⟩ = true :=
  (claim_C10 ⟨.ok (), .ok (some ()), .ok (), .ok (some ()), .ok (),
      (fun _ => .ok (some ())), .ok (), .ok none, .ok ()⟩).mpr
    ⟨rfl, rfl, rfl, rfl, rfl, rfl, rfl, Or.inl rfl⟩

end Bonfire
